import Mathlib

/-!
Verification development for the paper-pipeline repository.

Shallow embedding of the Go sources:
- `Processor` / `Deduplicator`: batch-processor record model and deduplication
  (go-services/batch-processor/deduplicator/deduplicator.go, processor types).
- `DynamoWriter`: the ingestion-side chunked DynamoDB writer with local retry
  over unprocessed items (batch-processor dynamodb writer).
- `Retriever`: the paginated secondary-index retriever keyed by trace id
  (vector-coordinator retriever).
- `Storage`: the vector-record batch writer (vector-coordinator storage).
- `Coordinator`: the vectorization stage `processVectorization`
  (vector-coordinator main).

External collaborators (DynamoDB, the embedding HTTP service) are modelled as
oracle functions supplied per invocation; wall-clock timestamps and durations
carried only for logging are abstracted to fixed values. Go `float64` values
are modelled by `F64`, which records exactly what the code observes about a
float: whether it is NaN (the code's `val != val` test); the numeric payload is
an opaque `Int`.
-/

namespace PaperPipeline

/-- Go float64 abstracted: the code only ever observes NaN-ness (`val != val`). -/
structure F64 where
  val : Int
  isNaN : Bool
deriving DecidableEq, Repr, Inhabited

namespace Processor

/-- processor.Paper from the batch-processor service. -/
structure Paper where
  paperID : String
  source : String
  title : String
  abstract : String
  authors : List String
  publishedDate : String
  categories : List String
  rawXML : String
  traceID : String
  batchTimestamp : String
  processingStatus : String
  createdAt : String
  updatedAt : String
deriving DecidableEq, Repr, Inhabited

/-- processor.DeduplicationStats. -/
structure DeduplicationStats where
  originalCount : Nat
  uniqueCount : Nat
  duplicateCount : Nat
  invalidCount : Nat
deriving DecidableEq, Repr, Inhabited

end Processor

namespace Deduplicator

open Processor

/-- Loop body of `DeduplicateWithStats` (deduplicator.go lines 69-85): iterate
in input order; an empty primary key counts as invalid and is dropped without
being seen-checked; a key already seen counts as duplicate; otherwise the
record is appended to the output and the key recorded. The Go
`map[string]bool` seen-set is modelled as the list of inserted keys. -/
def dedupLoop : List Paper → List String → List Paper → Nat → Nat → List Paper × Nat × Nat
  | [], _, acc, dup, inv => (acc, dup, inv)
  | p :: rest, seen, acc, dup, inv =>
    if p.paperID = "" then
      dedupLoop rest seen acc dup (inv + 1)
    else if seen.contains p.paperID then
      dedupLoop rest seen acc (dup + 1) inv
    else
      dedupLoop rest (p.paperID :: seen) (acc ++ [p]) dup inv

/-- DeduplicateWithStats (deduplicator.go lines 57-97). The early return for an
empty input mirrors the source and coincides with the general path. -/
def DeduplicateWithStats (papers : List Paper) : List Paper × DeduplicationStats :=
  if papers = [] then
    (papers, { originalCount := papers.length, uniqueCount := 0, duplicateCount := 0, invalidCount := 0 })
  else
    ((dedupLoop papers [] [] 0 0).1,
      { originalCount := papers.length,
        uniqueCount := (dedupLoop papers [] [] 0 0).1.length,
        duplicateCount := (dedupLoop papers [] [] 0 0).2.1,
        invalidCount := (dedupLoop papers [] [] 0 0).2.2 })

theorem dedupLoop_partition (l : List Paper) : ∀ seen acc dup inv,
    (dedupLoop l seen acc dup inv).1.length + (dedupLoop l seen acc dup inv).2.1
      + (dedupLoop l seen acc dup inv).2.2 = acc.length + dup + inv + l.length := by
  induction l with
  | nil => intro seen acc dup inv; simp [dedupLoop]
  | cons p rest ih =>
    intro seen acc dup inv
    by_cases h1 : p.paperID = ""
    · simp only [dedupLoop, if_pos h1, List.length_cons]
      rw [ih]; omega
    · by_cases h2 : seen.contains p.paperID
      · simp only [dedupLoop, if_neg h1, if_pos h2, List.length_cons]
        rw [ih]; omega
      · simp only [dedupLoop, if_neg h1, if_neg h2, List.length_cons]
        rw [ih]; simp only [List.length_append, List.length_cons, List.length_nil]; omega

theorem dedupLoop_invalid (l : List Paper) : ∀ seen acc dup inv,
    (dedupLoop l seen acc dup inv).2.2
      = inv + (l.filter (fun p => p.paperID == "")).length := by
  induction l with
  | nil => intro seen acc dup inv; simp [dedupLoop]
  | cons p rest ih =>
    intro seen acc dup inv
    by_cases h1 : p.paperID = ""
    · simp only [dedupLoop, if_pos h1]
      rw [ih, List.filter_cons]
      simp [h1]; omega
    · have hb : (p.paperID == "") = false := by simp [h1]
      by_cases h2 : seen.contains p.paperID
      · simp only [dedupLoop, if_neg h1, if_pos h2]
        rw [ih, List.filter_cons, hb]
        simp
      · simp only [dedupLoop, if_neg h1, if_neg h2]
        rw [ih, List.filter_cons, hb]
        simp

/-- C4: for every input sequence (including the empty one) the statistics of
`DeduplicateWithStats` satisfy unique + duplicate + invalid = original, with
original the input length, invalid exactly the records with an empty primary
key, and unique the length of the returned record list. -/
theorem deduplicate_partition (papers : List Paper) :
    (DeduplicateWithStats papers).2.uniqueCount + (DeduplicateWithStats papers).2.duplicateCount
        + (DeduplicateWithStats papers).2.invalidCount = (DeduplicateWithStats papers).2.originalCount
      ∧ (DeduplicateWithStats papers).2.originalCount = papers.length
      ∧ (DeduplicateWithStats papers).2.invalidCount
          = (papers.filter (fun p => p.paperID == "")).length
      ∧ (DeduplicateWithStats papers).2.uniqueCount = (DeduplicateWithStats papers).1.length := by
  by_cases h : papers = []
  · subst h; simp [DeduplicateWithStats]
  · have hp := dedupLoop_partition papers [] [] 0 0
    have hi := dedupLoop_invalid papers [] [] 0 0
    simp only [List.length_nil, Nat.zero_add] at hp hi
    simp only [DeduplicateWithStats, if_neg h]
    exact ⟨by omega, trivial, hi, trivial⟩

/-- First-occurrence reference form of the deduplication loop, written from the
spec sentence "the first occurrence of a primary key is kept, subsequent
occurrences are counted as duplicates and dropped"; compared against
`dedupLoop` below. -/
def dedupKept : List String → List Paper → List Paper
  | _, [] => []
  | seen, p :: rest =>
    if p.paperID = "" then dedupKept seen rest
    else if seen.contains p.paperID then dedupKept seen rest
    else p :: dedupKept (p.paperID :: seen) rest

theorem dedupLoop_fst (l : List Paper) : ∀ seen acc dup inv,
    (dedupLoop l seen acc dup inv).1 = acc ++ dedupKept seen l := by
  induction l with
  | nil => intro seen acc dup inv; simp [dedupLoop, dedupKept]
  | cons p rest ih =>
    intro seen acc dup inv
    by_cases h1 : p.paperID = ""
    · simp only [dedupLoop, dedupKept, if_pos h1]; exact ih ..
    · by_cases h2 : seen.contains p.paperID
      · simp only [dedupLoop, dedupKept, if_neg h1, if_pos h2]; exact ih ..
      · simp only [dedupLoop, dedupKept, if_neg h1, if_neg h2]
        rw [ih]
        simp

theorem dedupKept_sublist (l : List Paper) : ∀ seen, (dedupKept seen l).Sublist l := by
  induction l with
  | nil => intro seen; simp [dedupKept]
  | cons p rest ih =>
    intro seen
    by_cases h1 : p.paperID = ""
    · simp only [dedupKept, if_pos h1]
      exact (ih seen).cons p
    · by_cases h2 : seen.contains p.paperID
      · simp only [dedupKept, if_neg h1, if_pos h2]
        exact (ih seen).cons p
      · simp only [dedupKept, if_neg h1, if_neg h2]
        exact (ih _).cons₂ p

theorem dedupKept_key_ne (l : List Paper) : ∀ seen p, p ∈ dedupKept seen l → p.paperID ≠ "" := by
  induction l with
  | nil => intro seen p hp; simp [dedupKept] at hp
  | cons q rest ih =>
    intro seen p hp
    by_cases h1 : q.paperID = ""
    · simp only [dedupKept, if_pos h1] at hp; exact ih _ _ hp
    · by_cases h2 : seen.contains q.paperID
      · simp only [dedupKept, if_neg h1, if_pos h2] at hp; exact ih _ _ hp
      · simp only [dedupKept, if_neg h1, if_neg h2, List.mem_cons] at hp
        rcases hp with rfl | hp
        · exact h1
        · exact ih _ _ hp

theorem dedupKept_filter_of_contains (l : List Paper) : ∀ seen K, seen.contains K = true →
    (dedupKept seen l).filter (fun p => p.paperID == K) = [] := by
  induction l with
  | nil => intro seen K _; simp [dedupKept]
  | cons q rest ih =>
    intro seen K hK
    by_cases h1 : q.paperID = ""
    · simp only [dedupKept, if_pos h1]; exact ih _ _ hK
    · by_cases h2 : seen.contains q.paperID
      · simp only [dedupKept, if_neg h1, if_pos h2]; exact ih _ _ hK
      · simp only [dedupKept, if_neg h1, if_neg h2]
        rw [List.filter_cons]
        have hqK : (q.paperID == K) = false := by
          by_cases hqe : q.paperID = K
          · exfalso; rw [hqe] at h2; exact h2 hK
          · simp [hqe]
        rw [hqK]
        simp only [Bool.false_eq_true, if_false]
        refine ih _ _ ?_
        have hmem : K ∈ seen := by simpa using hK
        simp [List.contains_cons, hmem]

theorem dedupKept_filter_first (l : List Paper) : ∀ seen K, K ≠ "" → seen.contains K = false →
    (dedupKept seen l).filter (fun p => p.paperID == K)
      = (l.filter (fun p => p.paperID == K)).take 1 := by
  induction l with
  | nil => intro seen K _ _; simp [dedupKept]
  | cons q rest ih =>
    intro seen K hne hK
    by_cases h1 : q.paperID = ""
    · have hqK : (q.paperID == K) = false := by
        have hqne : q.paperID ≠ K := by
          intro hh
          rw [h1] at hh
          exact hne hh.symm
        simp [hqne]
      simp only [dedupKept, if_pos h1, List.filter_cons, hqK]
      simp only [Bool.false_eq_true, if_false]
      exact ih _ _ hne hK
    · by_cases h2 : seen.contains q.paperID
      · have hqK : (q.paperID == K) = false := by
          by_cases hqe : q.paperID = K
          · exfalso; rw [hqe] at h2; rw [h2] at hK; simp at hK
          · simp [hqe]
        simp only [dedupKept, if_neg h1, if_pos h2, List.filter_cons, hqK]
        simp only [Bool.false_eq_true, if_false]
        exact ih _ _ hne hK
      · by_cases hqe : q.paperID = K
        · have hqK : (q.paperID == K) = true := by simp [hqe]
          simp only [dedupKept, if_neg h1, if_neg h2, List.filter_cons, hqK, if_pos]
          rw [dedupKept_filter_of_contains rest _ K (by simp [List.contains_cons, hqe])]
          simp
        · have hqK : (q.paperID == K) = false := by simp [hqe]
          simp only [dedupKept, if_neg h1, if_neg h2, List.filter_cons, hqK]
          simp only [Bool.false_eq_true, if_false]
          refine ih _ _ hne ?_
          have hne2 : ¬(K = q.paperID) := fun hh => hqe hh.symm
          have hKmem : K ∉ seen := by simpa using hK
          simp [List.contains_cons, hne2, hKmem]

theorem length_filter_add_not (p : α → Bool) (l : List α) :
    (l.filter p).length + (l.filter (fun a => !(p a))).length = l.length := by
  induction l with
  | nil => simp
  | cons a t ih =>
    by_cases h : p a = true
    · simp [List.filter_cons, h, ih]; omega
    · have h' : p a = false := by simp_all
      simp [List.filter_cons, h', ih]; omega

theorem filter_take_one_of_first (p : Paper → Bool) (d : Paper) :
    ∀ (l : List Paper) (i : Nat), i < l.length → p (l.getD i d) = true →
      (∀ k, k < i → p (l.getD k d) = false) →
      (l.filter p).take 1 = [l.getD i d] := by
  intro l
  induction l with
  | nil => intro i hi; simp at hi
  | cons a t ih =>
    intro i hi hp hfirst
    cases i with
    | zero =>
      simp only [List.getD_cons_zero] at hp ⊢
      rw [List.filter_cons, hp]
      simp
    | succ m =>
      have ha : p a = false := by
        have := hfirst 0 (Nat.succ_pos m)
        simpa using this
      simp only [List.getD_cons_succ] at hp ⊢
      rw [List.filter_cons, ha]
      simp only [Bool.false_eq_true, if_false]
      exact ih m (by simpa using hi) hp
        (fun k hk => by simpa using hfirst (k + 1) (Nat.succ_lt_succ hk))

/-- C3: for nonempty primary key K occurring at positions i < j with i the
first occurrence, the deduplicated output retains exactly the record at
position i among the K-keyed records (so the record at position j is dropped),
the output is a sublist of the input (input order preserved), and the
duplicate count accounts for the dropped later occurrences of K. -/
theorem deduplicate_first_occurrence (papers : List Paper) (i j : Nat) (K : String)
    (hij : i < j) (hj : j < papers.length)
    (hKi : (papers.getD i default).paperID = K)
    (hKj : (papers.getD j default).paperID = K)
    (hne : K ≠ "")
    (hfirst : ∀ h, h < i → (papers.getD h default).paperID ≠ K) :
    (DeduplicateWithStats papers).1.filter (fun p => p.paperID == K) = [papers.getD i default]
      ∧ (DeduplicateWithStats papers).1.Sublist papers
      ∧ (papers.filter (fun p => p.paperID == K)).length - 1
          ≤ (DeduplicateWithStats papers).2.duplicateCount := by
  have hpe : papers ≠ [] := by
    intro h; rw [h] at hj; simp at hj
  have hout : (DeduplicateWithStats papers).1 = dedupKept [] papers := by
    simp only [DeduplicateWithStats, if_neg hpe]
    rw [dedupLoop_fst]
    simp
  have hfilter : (DeduplicateWithStats papers).1.filter (fun p => p.paperID == K)
      = (papers.filter (fun p => p.paperID == K)).take 1 := by
    rw [hout]
    exact dedupKept_filter_first papers [] K hne rfl
  have htake : (papers.filter (fun p => p.paperID == K)).take 1 = [papers.getD i default] := by
    refine filter_take_one_of_first _ default papers i (lt_trans hij hj) ?_ ?_
    · exact beq_iff_eq.mpr hKi
    · intro k hk
      exact beq_eq_false_iff_ne.mpr (hfirst k hk)
  refine ⟨by rw [hfilter, htake], by rw [hout]; exact dedupKept_sublist papers [], ?_⟩
  -- accounting: duplicates cover all dropped K-occurrences
  have hpart := dedupLoop_partition papers [] [] 0 0
  have hinv := dedupLoop_invalid papers [] [] 0 0
  simp only [List.length_nil, Nat.zero_add] at hpart hinv
  have hdup : (DeduplicateWithStats papers).2.duplicateCount = (dedupLoop papers [] [] 0 0).2.1 := by
    simp [DeduplicateWithStats, if_neg hpe]
  have houtlen : (DeduplicateWithStats papers).1.length = (dedupLoop papers [] [] 0 0).1.length := by
    simp [DeduplicateWithStats, if_neg hpe]
  have hq1 : ((DeduplicateWithStats papers).1.filter (fun p => p.paperID == K)).length = 1 := by
    rw [hfilter, htake]; rfl
  -- split the output by K
  have hsplit_out : ((DeduplicateWithStats papers).1.filter (fun p => p.paperID == K)).length
      + ((DeduplicateWithStats papers).1.filter (fun a => !(a.paperID == K))).length
      = (DeduplicateWithStats papers).1.length :=
    length_filter_add_not (fun p => p.paperID == K) (DeduplicateWithStats papers).1
  -- the non-K part of the output also has nonempty keys
  have hcongr_out : (DeduplicateWithStats papers).1.filter (fun a => !(a.paperID == K))
      = (DeduplicateWithStats papers).1.filter
          (fun a => !(a.paperID == "") && !(a.paperID == K)) := by
    apply List.filter_congr
    intro a ha
    have hane : a.paperID ≠ "" := by
      refine dedupKept_key_ne papers [] a ?_
      rw [← hout]; exact ha
    simp [hane]
  have hsub : (DeduplicateWithStats papers).1.Sublist papers := by
    rw [hout]; exact dedupKept_sublist papers []
  have hcl : ((DeduplicateWithStats papers).1.filter (fun a => !(a.paperID == K))).length
      = ((DeduplicateWithStats papers).1.filter
          (fun a => !(a.paperID == "") && !(a.paperID == K))).length := by
    rw [hcongr_out]
  have hle : ((DeduplicateWithStats papers).1.filter
        (fun a => !(a.paperID == "") && !(a.paperID == K))).length
      ≤ (papers.filter (fun a => !(a.paperID == "") && !(a.paperID == K))).length :=
    (hsub.filter _).length_le
  -- split the input by K, then the non-K part by empty key
  have hsplit_in : (papers.filter (fun p => p.paperID == K)).length
      + (papers.filter (fun a => !(a.paperID == K))).length = papers.length :=
    length_filter_add_not (fun p => p.paperID == K) papers
  have hsplit_in2 := length_filter_add_not (fun a => a.paperID == "")
    (papers.filter (fun a => !(a.paperID == K)))
  rw [List.filter_filter, List.filter_filter] at hsplit_in2
  have hempty_eq : papers.filter (fun a => a.paperID == "" && !(a.paperID == K))
      = papers.filter (fun a => a.paperID == "") := by
    apply List.filter_congr
    intro a _
    by_cases h : a.paperID = ""
    · have hKne : ¬("" = K) := fun hh => hne hh.symm
      simp [h, hKne]
    · simp [h]
  rw [hempty_eq] at hsplit_in2
  rw [hdup]
  omega

/-- Convenience constructor for concrete test records. -/
def mkPaper (id t : String) : Paper :=
  { paperID := id, source := "", title := t, abstract := "", authors := [],
    publishedDate := "", categories := [], rawXML := "", traceID := "",
    batchTimestamp := "", processingStatus := "", createdAt := "", updatedAt := "" }

/-- Witness for C3 at a concrete input: two records sharing key "A". -/
theorem deduplicate_first_occurrence_witness :
    (DeduplicateWithStats [mkPaper "A" "x", mkPaper "A" "y"]).1.filter
        (fun p => p.paperID == "A") = [[mkPaper "A" "x", mkPaper "A" "y"].getD 0 default]
      ∧ (DeduplicateWithStats [mkPaper "A" "x", mkPaper "A" "y"]).1.Sublist
          [mkPaper "A" "x", mkPaper "A" "y"]
      ∧ ([mkPaper "A" "x", mkPaper "A" "y"].filter (fun p => p.paperID == "A")).length - 1
          ≤ (DeduplicateWithStats [mkPaper "A" "x", mkPaper "A" "y"]).2.duplicateCount :=
  deduplicate_first_occurrence [mkPaper "A" "x", mkPaper "A" "y"] 0 1 "A"
    (by decide) (by decide) (by decide) (by decide) (by decide)
    (fun h hh => absurd hh (Nat.not_lt_zero h))

end Deduplicator

/-- Fueled worker for `chunksOf`; the fuel is an upper bound on the number of
chunks (the list length suffices for any positive chunk size). -/
def chunksOfGo (c : Nat) : Nat → List α → List (List α)
  | _, [] => []
  | 0, _ :: _ => []
  | fuel + 1, a :: rest => ((a :: rest).take c) :: chunksOfGo c fuel ((a :: rest).drop c)

/-- Consecutive chunks of at most `c` elements, mirroring the Go loops
`for i := 0; i < len(records); i += batchSize { batch := records[i:end] }`
used by both batch writers. -/
def chunksOf (c : Nat) (l : List α) : List (List α) := chunksOfGo c l.length l

theorem chunksOfGo_fuel (c : Nat) (hc : 0 < c) : ∀ (f1 : Nat), ∀ (f2 : Nat) (l : List α),
    l.length ≤ f1 → l.length ≤ f2 → chunksOfGo c f1 l = chunksOfGo c f2 l := by
  intro f1
  induction f1 with
  | zero =>
    intro f2 l h1 _
    have hl : l = [] := List.length_eq_zero.mp (Nat.le_zero.mp h1)
    subst hl
    cases f2 <;> simp [chunksOfGo]
  | succ m ih =>
    intro f2 l h1 h2
    cases l with
    | nil => cases f2 <;> simp [chunksOfGo]
    | cons a rest =>
      cases f2 with
      | zero => simp at h2
      | succ m2 =>
        simp only [chunksOfGo]
        congr 1
        refine ih m2 ((a :: rest).drop c) ?_ ?_ <;>
          simp only [List.length_drop, List.length_cons] at h1 h2 ⊢ <;> omega

theorem chunksOf_nil (c : Nat) : chunksOf c ([] : List α) = [] := rfl

theorem chunksOf_cons (c : Nat) (hc : 0 < c) (l : List α) (hl : l ≠ []) :
    chunksOf c l = l.take c :: chunksOf c (l.drop c) := by
  cases l with
  | nil => exact absurd rfl hl
  | cons a rest =>
    simp only [chunksOf, List.length_cons, chunksOfGo]
    congr 1
    refine chunksOfGo_fuel c hc rest.length _ ((a :: rest).drop c) ?_ ?_ <;>
      simp only [List.length_drop, List.length_cons] <;> omega

theorem chunksOf25_sum_aux : ∀ (n : Nat) (l : List α), l.length ≤ n →
    ((chunksOf 25 l).map List.length).sum = l.length := by
  intro n
  induction n with
  | zero =>
    intro l hl
    have hl0 : l = [] := List.length_eq_zero.mp (Nat.le_zero.mp hl)
    subst hl0; simp [chunksOf_nil]
  | succ m ih =>
    intro l hl
    by_cases he : l = []
    · subst he; simp [chunksOf_nil]
    · rw [chunksOf_cons 25 (by norm_num) l he]
      simp only [List.map_cons, List.sum_cons]
      rw [ih (l.drop 25) (by simp only [List.length_drop]; omega)]
      have h1 : 0 < l.length := List.length_pos.mpr he
      simp only [List.length_take, List.length_drop]
      omega

theorem chunksOf25_sum (l : List α) : ((chunksOf 25 l).map List.length).sum = l.length :=
  chunksOf25_sum_aux l.length l le_rfl

theorem chunksOf25_length_aux : ∀ (n : Nat) (l : List α), l.length ≤ n →
    (chunksOf 25 l).length = (l.length + 24) / 25 := by
  intro n
  induction n with
  | zero =>
    intro l hl
    have hl0 : l = [] := List.length_eq_zero.mp (Nat.le_zero.mp hl)
    subst hl0; simp [chunksOf_nil]
  | succ m ih =>
    intro l hl
    by_cases he : l = []
    · subst he; simp [chunksOf_nil]
    · rw [chunksOf_cons 25 (by norm_num) l he]
      simp only [List.length_cons]
      rw [ih (l.drop 25) (by simp only [List.length_drop]; omega)]
      have h1 : 0 < l.length := List.length_pos.mpr he
      simp only [List.length_drop]
      omega

theorem chunksOf25_length (l : List α) : (chunksOf 25 l).length = (l.length + 24) / 25 :=
  chunksOf25_length_aux l.length l le_rfl

theorem chunksOf25_mem_aux : ∀ (n : Nat) (l : List α), l.length ≤ n →
    ∀ ch ∈ chunksOf 25 l, ch.length ≤ 25 ∧ ch ≠ [] ∧ (∀ r ∈ ch, r ∈ l) := by
  intro n
  induction n with
  | zero =>
    intro l hl ch hch
    have hl0 : l = [] := List.length_eq_zero.mp (Nat.le_zero.mp hl)
    subst hl0; simp [chunksOf_nil] at hch
  | succ m ih =>
    intro l hl ch hch
    by_cases he : l = []
    · subst he; simp [chunksOf_nil] at hch
    · rw [chunksOf_cons 25 (by norm_num) l he] at hch
      rcases List.mem_cons.mp hch with rfl | hmem
      · refine ⟨by simp [List.length_take], ?_, fun r hr => List.take_subset _ _ hr⟩
        intro htake
        rcases List.take_eq_nil_iff.mp htake with h25 | hnil
        · exact absurd h25 (by norm_num)
        · exact he hnil
      · obtain ⟨h1, h2, h3⟩ := ih (l.drop 25) (by simp only [List.length_drop]; omega) ch hmem
        exact ⟨h1, h2, fun r hr => List.drop_subset _ _ (h3 r hr)⟩

theorem chunksOf25_mem (l : List α) (ch : List α) (hch : ch ∈ chunksOf 25 l) :
    ch.length ≤ 25 ∧ ch ≠ [] ∧ (∀ r ∈ ch, r ∈ l) :=
  chunksOf25_mem_aux l.length l le_rfl ch hch

namespace Storage

/-- storage.EmbeddingMetadata. Go `int` fields are modelled as `Int`. -/
structure EmbeddingMetadata where
  modelName : String
  modelVersion : String
  dimension : Int
  textLength : Int
  preprocessing : String
deriving DecidableEq, Repr, Inhabited

/-- storage.SourceText. -/
structure SourceText where
  content : String
  sourceFields : List String
  language : String
deriving DecidableEq, Repr, Inhabited

/-- storage.ProcessingInfo. `createdAt` is a wall-clock timestamp string used
only for storage, abstracted to an arbitrary string. -/
structure ProcessingInfo where
  createdAt : String
  traceID : String
  processingTimeMs : Int
deriving DecidableEq, Repr, Inhabited

/-- storage.VectorRecord. -/
structure VectorRecord where
  paperID : String
  vectorType : String
  embedding : List F64
  embeddingMetadata : EmbeddingMetadata
  sourceText : SourceText
  processingInfo : ProcessingInfo
deriving DecidableEq, Repr, Inhabited

/-- storage.BatchWriteResult. Go `[]error` is modelled as the list of error
message strings. -/
structure BatchWriteResult where
  successCount : Nat
  failedItems : List VectorRecord
  errors : List String
deriving DecidableEq, Repr, Inhabited

/-- extractModelName (vector_storage.go line 110): currently the identity. -/
def extractModelName (modelVersion : String) : String := modelVersion

/-- CreateVectorRecord (vector_storage.go lines 82-107). The `time.Now()`
timestamp is abstracted to `""`; the caller-measured per-item duration is the
`processingTimeMs` argument, exactly as in the source. -/
def CreateVectorRecord (paperID text traceID : String) (embedding : List F64)
    (modelVersion : String) (processingTimeMs : Int) : VectorRecord :=
  { paperID := paperID
    vectorType := "title_abstract"
    embedding := embedding
    embeddingMetadata :=
      { modelName := extractModelName modelVersion
        modelVersion := modelVersion
        dimension := (embedding.length : Int)
        textLength := (text.length : Int)
        preprocessing := "title_abstract_combination" }
    sourceText :=
      { content := text
        sourceFields := ["title", "abstract"]
        language := "en" }
    processingInfo :=
      { createdAt := ""
        traceID := traceID
        processingTimeMs := processingTimeMs } }

/-- validateVectorRecord (vector_storage.go lines 289-323): checks in source
order; the NaN scan reports the first offending index (Go's `val != val`). -/
def validateVectorRecord (record : VectorRecord) : Option String :=
  if record.paperID = "" then some "paper_id is empty"
  else if record.vectorType = "" then some "vector_type is empty"
  else if record.embedding.length = 0 then some "embedding vector is empty"
  else if ¬(record.embeddingMetadata.dimension = (record.embedding.length : Int)) then
    some ("dimension mismatch: metadata says " ++ toString record.embeddingMetadata.dimension
      ++ ", embedding has " ++ toString record.embedding.length)
  else if record.embeddingMetadata.modelVersion = "" then some "model_version is empty"
  else if record.processingInfo.traceID = "" then some "trace_id is empty"
  else
    match record.embedding.findIdx? (fun v => v.isNaN) with
    | some idx => some ("embedding contains NaN at index " ++ toString idx)
    | none => none

/-- Response of one DynamoDB BatchWriteItem call as observed by `processBatch`:
a hard call error, or success together with the number of items the store
reports as unprocessed for the target table. The DynamoDB contract guarantees
unprocessed items are a subset of the submitted ones (`ClientOK` below). -/
inductive StoreCall where
  | fail (msg : String)
  | ok (unprocessedCount : Nat)
deriving DecidableEq, Repr

/-- Return value of `processBatch` plus instrumentation: `err` is the Go error
return (provably always nil), `callSizes` records the item count of each
BatchWriteItem call actually issued (zero or one per chunk). -/
structure PBOut where
  result : BatchWriteResult
  err : Option String
  callSizes : List Nat
deriving DecidableEq, Repr

/-- processBatch (vector_storage.go lines 169-286). Validation failures are
collected as failed items with errors and never sent to the store; with no
valid records the store is not called. Marshalling of these record types
cannot fail, so the write requests are exactly the valid records. On a hard
call error every valid record is marked failed; on success,
`SuccessCount = totalRequested - unprocessedCount` and the unprocessed items
are approximated by the tail slice `validRecords[successCount:...]` exactly as
in the source loop. (Go computes the subtraction on `int`; under the store
contract `unprocessedCount ≤ totalRequested` the `Nat` subtraction coincides.) -/
def processBatch (call : List VectorRecord → StoreCall) (records : List VectorRecord) : PBOut :=
  let validRecords := records.filter (fun r => (validateVectorRecord r).isNone)
  let invalidRecords := records.filter (fun r => (validateVectorRecord r).isSome)
  let invalidErrors := invalidRecords.map
    (fun r => "invalid record " ++ r.paperID ++ ": " ++ ((validateVectorRecord r).getD ""))
  if validRecords = [] then
    { result := { successCount := 0, failedItems := invalidRecords, errors := invalidErrors },
      err := none, callSizes := [] }
  else
    match call validRecords with
    | .fail m =>
        { result :=
            { successCount := 0
              failedItems := invalidRecords ++ validRecords
              errors := invalidErrors ++ ["batch write failed: " ++ m] },
          err := none, callSizes := [validRecords.length] }
    | .ok unprocessedCount =>
        { result :=
            { successCount := validRecords.length - unprocessedCount
              failedItems := invalidRecords
                ++ (validRecords.drop (validRecords.length - unprocessedCount)).take unprocessedCount
              errors := invalidErrors },
          err := none, callSizes := [validRecords.length] }

/-- Return value of `BatchStoreVectors` plus the concatenated instrumentation. -/
structure BSVOut where
  result : BatchWriteResult
  err : Option String
  callSizes : List Nat
deriving DecidableEq, Repr

/-- Chunk loop of BatchStoreVectors (vector_storage.go lines 135-156): on a
per-chunk error the whole chunk is marked failed and processing continues with
the next chunk; otherwise the chunk result is accumulated. -/
def storeChunks (call : Nat → List VectorRecord → StoreCall) :
    Nat → List (List VectorRecord) → BatchWriteResult → List Nat → BatchWriteResult × List Nat
  | _, [], acc, sizes => (acc, sizes)
  | idx, chunk :: rest, acc, sizes =>
    let pb := processBatch (call idx) chunk
    match pb.err with
    | some m =>
        storeChunks call (idx + 1) rest
          { successCount := acc.successCount
            failedItems := acc.failedItems ++ chunk
            errors := acc.errors ++ [m] } (sizes ++ pb.callSizes)
    | none =>
        storeChunks call (idx + 1) rest
          { successCount := acc.successCount + pb.result.successCount
            failedItems := acc.failedItems ++ pb.result.failedItems
            errors := acc.errors ++ pb.result.errors } (sizes ++ pb.callSizes)

/-- BatchStoreVectors (vector_storage.go lines 119-166): empty input returns an
empty result; otherwise the records are processed in chunks of 25 (the
DynamoDB batch-write limit). The store client is an oracle indexed by chunk
number. -/
def BatchStoreVectors (call : Nat → List VectorRecord → StoreCall)
    (records : List VectorRecord) : BSVOut :=
  if records = [] then
    { result := { successCount := 0, failedItems := [], errors := [] },
      err := none, callSizes := [] }
  else
    { result := (storeChunks call 0 (chunksOf 25 records)
        { successCount := 0, failedItems := [], errors := [] } []).1
      err := none
      callSizes := (storeChunks call 0 (chunksOf 25 records)
        { successCount := 0, failedItems := [], errors := [] } []).2 }

/-- DynamoDB interface contract: a BatchWriteItem response never reports more
unprocessed items than were submitted in the call. -/
def ClientOK1 (call : List VectorRecord → StoreCall) : Prop :=
  ∀ reqs, match call reqs with
    | .ok u => u ≤ reqs.length
    | .fail _ => True

def ClientOK (call : Nat → List VectorRecord → StoreCall) : Prop := ∀ i, ClientOK1 (call i)

theorem processBatch_err_none (call : List VectorRecord → StoreCall)
    (records : List VectorRecord) : (processBatch call records).err = none := by
  simp only [processBatch]
  by_cases hv : records.filter (fun r => (validateVectorRecord r).isNone) = []
  · simp [hv]
  · simp only [if_neg hv]
    cases call (records.filter (fun r => (validateVectorRecord r).isNone)) <;> rfl

theorem processBatch_accounting (call : List VectorRecord → StoreCall)
    (records : List VectorRecord) (h : ClientOK1 call) :
    (processBatch call records).result.successCount
      + (processBatch call records).result.failedItems.length = records.length := by
  have hpart := Deduplicator.length_filter_add_not
    (fun r => (validateVectorRecord r).isNone) records
  have hinv_eq : records.filter (fun r => (validateVectorRecord r).isSome)
      = records.filter (fun a => !((validateVectorRecord a).isNone)) := by
    refine List.filter_congr ?_
    intro a _
    cases validateVectorRecord a <;> rfl
  simp only [processBatch]
  by_cases hv : records.filter (fun r => (validateVectorRecord r).isNone) = []
  · simp only [if_pos hv]
    rw [hv] at hpart
    simp only [List.length_nil, Nat.zero_add] at hpart
    rw [hinv_eq]
    simpa using hpart
  · simp only [if_neg hv]
    have hu := h (records.filter (fun r => (validateVectorRecord r).isNone))
    rcases hcall : call (records.filter (fun r => (validateVectorRecord r).isNone)) with m | u
    · dsimp only
      rw [hinv_eq]
      simp only [List.length_append]
      omega
    · dsimp only at hu ⊢
      rw [hinv_eq]
      simp only [List.length_append, List.length_take, List.length_drop]
      omega

theorem storeChunks_accounting (call : Nat → List VectorRecord → StoreCall) (h : ClientOK call) :
    ∀ (chunks : List (List VectorRecord)) (idx : Nat) (acc : BatchWriteResult) (sizes : List Nat),
      (storeChunks call idx chunks acc sizes).1.successCount
          + (storeChunks call idx chunks acc sizes).1.failedItems.length
        = acc.successCount + acc.failedItems.length + (chunks.map List.length).sum := by
  intro chunks
  induction chunks with
  | nil => intro idx acc sizes; simp [storeChunks]
  | cons chunk rest ih =>
    intro idx acc sizes
    have herr := processBatch_err_none (call idx) chunk
    have hacc := processBatch_accounting (call idx) chunk (h idx)
    simp only [storeChunks, herr]
    rw [ih]
    simp only [List.length_append, List.map_cons, List.sum_cons]
    omega

theorem BatchStoreVectors_accounting (call : Nat → List VectorRecord → StoreCall)
    (records : List VectorRecord) (h : ClientOK call) :
    (BatchStoreVectors call records).result.successCount
        + (BatchStoreVectors call records).result.failedItems.length = records.length := by
  by_cases hr : records = []
  · subst hr; simp [BatchStoreVectors]
  · simp only [BatchStoreVectors, if_neg hr]
    rw [storeChunks_accounting call h]
    simp [chunksOf25_sum]

theorem BatchStoreVectors_err_none (call : Nat → List VectorRecord → StoreCall)
    (records : List VectorRecord) : (BatchStoreVectors call records).err = none := by
  by_cases hr : records = []
  · subst hr; simp [BatchStoreVectors]
  · simp [BatchStoreVectors, if_neg hr]

/-- C6: for every input list and every store behavior respecting the DynamoDB
contract, SuccessCount plus the number of FailedItems equals the number of
records — aggregated over one `BatchStoreVectors` invocation and per chunk
for `processBatch`. -/
theorem batch_store_accounting (call : Nat → List VectorRecord → StoreCall)
    (records : List VectorRecord) (h : ClientOK call) :
    ((BatchStoreVectors call records).result.successCount
        + (BatchStoreVectors call records).result.failedItems.length = records.length)
      ∧ ∀ (c : List VectorRecord → StoreCall) (chunk : List VectorRecord), ClientOK1 c →
          (processBatch c chunk).result.successCount
            + (processBatch c chunk).result.failedItems.length = chunk.length :=
  ⟨BatchStoreVectors_accounting call records h,
    fun c chunk hc => processBatch_accounting c chunk hc⟩

/-- A valid concrete vector record built through `CreateVectorRecord`. -/
def validRecordExample : VectorRecord :=
  CreateVectorRecord "p1" "some text" "tr1" [{ val := 1, isNaN := false }] "v1" 0

/-- Witness for C6 at a concrete input: the aggregate invariant and the
per-chunk invariant instantiated at a singleton record list. -/
theorem batch_store_accounting_witness :
    ((BatchStoreVectors (fun _ _ => StoreCall.ok 0) [validRecordExample]).result.successCount
        + (BatchStoreVectors (fun _ _ => StoreCall.ok 0)
            [validRecordExample]).result.failedItems.length = [validRecordExample].length)
      ∧ (processBatch (fun _ => StoreCall.ok 0) [validRecordExample]).result.successCount
          + (processBatch (fun _ =>
              StoreCall.ok 0) [validRecordExample]).result.failedItems.length
          = [validRecordExample].length :=
  ⟨(batch_store_accounting (fun _ _ => StoreCall.ok 0) [validRecordExample]
      (fun _ _ => Nat.zero_le _)).1,
    (batch_store_accounting (fun _ _ => StoreCall.ok 0) [validRecordExample]
      (fun _ _ => Nat.zero_le _)).2 (fun _ => StoreCall.ok 0) [validRecordExample]
      (fun _ => Nat.zero_le _)⟩

/-- C10: `BatchStoreVectors` (and `processBatch`) always return a result with a
nil Go error: storage and validation failures are reported only inside the
result, so a caller's error branch on `BatchStoreVectors` is unreachable. -/
theorem batch_store_never_errors :
    (∀ (call : Nat → List VectorRecord → StoreCall) (records : List VectorRecord),
        (BatchStoreVectors call records).err = none)
      ∧ ∀ (c : List VectorRecord → StoreCall) (chunk : List VectorRecord),
          (processBatch c chunk).err = none :=
  ⟨BatchStoreVectors_err_none, processBatch_err_none⟩

end Storage

namespace DynamoWriter

open Processor

/-- Response of one BatchWriteItem call made by the ingestion writer: either a
hard call error, or success together with the list of write requests the store
left unprocessed (a sublist of the submitted requests under the DynamoDB
contract). A write request is identified with the paper it carries since
marshalling cannot fail for these record types. -/
inductive IngResp where
  | fail (msg : String)
  | ok (unprocessed : List Paper)
deriving DecidableEq, Repr

/-- Loop of executeBatchWriteWithRetry (writer, lines 123-162): up to
`maxRetries = 3` BatchWriteItem calls in total; after a call that reports a
nonempty unprocessed subset, exactly that subset is re-submitted; a hard call
error aborts with an error; running out of attempts with items still
unprocessed returns the "failed to process" error. `remaining = 3 - attempt`
drives the recursion; the trace records every submitted request list. -/
def retryGo (call : Nat → List Paper → IngResp) :
    Nat → Nat → List Paper → List (List Paper) →
      Except String Unit × List (List Paper)
  | 0, _, current, tr =>
    (.error ("failed to process " ++ toString current.length ++ " items after 3 retries"), tr)
  | _ + 1, _, [], tr =>
    (.error ("failed to process 0 items after 3 retries"), tr)
  | remaining + 1, attempt, a :: rest, tr =>
    match call attempt (a :: rest) with
    | .fail m =>
        (.error ("batch write failed on attempt " ++ toString (attempt + 1) ++ ": " ++ m),
          tr ++ [a :: rest])
    | .ok unp =>
        if unp = [] then (.ok (), tr ++ [a :: rest])
        else retryGo call remaining (attempt + 1) unp (tr ++ [a :: rest])

/-- executeBatchWriteWithRetry: the Go loop starts at attempt 0 with the full
request list and an empty trace. -/
def executeBatchWriteWithRetry (call : Nat → List Paper → IngResp)
    (writeRequests : List Paper) : Except String Unit × List (List Paper) :=
  retryGo call 3 0 writeRequests []

/-- processBatch of the ingestion writer (writer, lines 81-120): empty batches
succeed trivially, oversized batches are rejected, and otherwise the
(marshalled) requests — exactly the papers, since marshalling cannot fail for
this record type — are handed to `executeBatchWriteWithRetry`. -/
def processBatchW (call : Nat → List Paper → IngResp) (papers : List Paper) :
    Except String Unit × List (List Paper) :=
  if papers = [] then (.ok (), [])
  else if 25 < papers.length then
    (.error ("batch size " ++ toString papers.length ++ " exceeds maximum 25"), [])
  else executeBatchWriteWithRetry call papers

/-- Chunk loop of BatchUpsert (writer, lines 58-74): chunks of `MaxBatchSize =
25`; a failing chunk aborts the whole upsert with an error naming the index
range of the chunk. The second component instruments the sizes of the
BatchWriteItem calls actually issued. The store client is indexed by chunk
number and attempt number. -/
def upsertLoop (call : Nat → Nat → List Paper → IngResp) :
    Nat → List (List Paper) → List Nat → Except String Unit × List Nat
  | _, [], sizes => (.ok (), sizes)
  | idx, chunk :: rest, sizes =>
    match processBatchW (call idx) chunk with
    | (.error m, tr) =>
        (.error ("failed to process batch " ++ toString (25 * idx) ++ "-"
            ++ toString (25 * idx + chunk.length - 1) ++ ": " ++ m),
          sizes ++ tr.map List.length)
    | (.ok _, tr) => upsertLoop call (idx + 1) rest (sizes ++ tr.map List.length)

/-- BatchUpsert (writer, lines 47-78). -/
def BatchUpsert (call : Nat → Nat → List Paper → IngResp) (papers : List Paper) :
    Except String Unit × List Nat :=
  if papers = [] then (.ok (), [])
  else upsertLoop call 0 (chunksOf 25 papers) []

/-- A store client that reports every submitted item as unprocessed on every
call. -/
def allUnprocessed : Nat → List Paper → IngResp := fun _ reqs => IngResp.ok reqs

/-- C7 counterexample: against a store that always reports everything
unprocessed, the ingestion writer submits exactly 3 BatchWriteItem calls in
total — the initial call plus only 2 retry passes over the unprocessed subset,
not the 3 retry passes the claim states (which would give 4 calls) — and then
surfaces the failure. -/
theorem ingest_retry_count_cex :
    (executeBatchWriteWithRetry allUnprocessed [Deduplicator.mkPaper "p1" ""]).2.length = 3
      ∧ ¬((executeBatchWriteWithRetry allUnprocessed [Deduplicator.mkPaper "p1" ""]).2.length = 4)
      ∧ (executeBatchWriteWithRetry allUnprocessed [Deduplicator.mkPaper "p1" ""]).1
          = Except.error "failed to process 1 items after 3 retries" := by
  exact ⟨rfl, by decide, rfl⟩

/-- C7 (amended): after a call reports unprocessed items the writer re-submits
exactly the unprocessed subset, performing at most 2 further retry passes
(3 BatchWriteItem calls in total, `maxRetries = 3`); items that succeeded in a
pass are not re-sent (only the unprocessed subset is); success is reached
exactly when some call returns an empty unprocessed set, and when all calls
succeed but items remain unprocessed after the third call the writer surfaces
the "failed to process" error for exactly the remaining subset. -/
theorem ingest_retry_behavior_amended (call : Nat → List Processor.Paper → IngResp)
    (reqs : List Processor.Paper) (hne : reqs ≠ []) :
    (executeBatchWriteWithRetry call reqs).2.head? = some reqs
      ∧ (executeBatchWriteWithRetry call reqs).2.length ≤ 3
      ∧ (∀ k, k + 1 < (executeBatchWriteWithRetry call reqs).2.length →
          call k ((executeBatchWriteWithRetry call reqs).2.getD k [])
              = IngResp.ok ((executeBatchWriteWithRetry call reqs).2.getD (k + 1) [])
            ∧ (executeBatchWriteWithRetry call reqs).2.getD (k + 1) [] ≠ [])
      ∧ ((executeBatchWriteWithRetry call reqs).1 = Except.ok ()
          ↔ call ((executeBatchWriteWithRetry call reqs).2.length - 1)
              ((executeBatchWriteWithRetry call reqs).2.getD
                ((executeBatchWriteWithRetry call reqs).2.length - 1) [])
            = IngResp.ok [])
      ∧ ((∀ k, k < (executeBatchWriteWithRetry call reqs).2.length →
            ∃ u, call k ((executeBatchWriteWithRetry call reqs).2.getD k []) = IngResp.ok u) →
          (executeBatchWriteWithRetry call reqs).1 = Except.ok ()
            ∨ ((executeBatchWriteWithRetry call reqs).2.length = 3
                ∧ ∃ u, u ≠ []
                    ∧ call 2 ((executeBatchWriteWithRetry call reqs).2.getD 2 []) = IngResp.ok u
                    ∧ (executeBatchWriteWithRetry call reqs).1
                      = Except.error ("failed to process " ++ toString u.length
                          ++ " items after 3 retries"))) := by
  obtain ⟨a, rest, rfl⟩ : ∃ a rs, reqs = a :: rs := by
    cases reqs with
    | nil => exact absurd rfl hne
    | cons a rs => exact ⟨a, rs, rfl⟩
  simp only [executeBatchWriteWithRetry, retryGo]
  rcases h0 : call 0 (a :: rest) with m0 | u0
  · -- hard failure on the first call
    refine ⟨rfl, by norm_num, ?_, ?_, ?_⟩
    · intro k hk; simp at hk
    · simp [h0]
    · intro hall
      obtain ⟨u, hu⟩ := hall 0 (by norm_num)
      simp only [List.nil_append, List.getD_cons_zero] at hu
      rw [h0] at hu
      simp at hu
  · by_cases hu0 : u0 = []
    · subst hu0
      simp only [if_pos]
      refine ⟨rfl, by norm_num, ?_, ?_, fun _ => Or.inl trivial⟩
      · intro k hk; simp at hk
      · simp [h0]
    · simp only [if_neg hu0]
      obtain ⟨b, brest, rfl⟩ : ∃ b bs, u0 = b :: bs := by
        cases u0 with
        | nil => exact absurd rfl hu0
        | cons b bs => exact ⟨b, bs, rfl⟩
      simp only [retryGo]
      rcases h1 : call (0 + 1) (b :: brest) with m1 | u1
      · replace h1 : call 1 (b :: brest) = IngResp.fail m1 := by simpa using h1
        refine ⟨rfl, by norm_num, ?_, ?_, ?_⟩
        · intro k hk
          have hk2 : k = 0 := by
            simp only [List.nil_append, List.length_append, List.length_cons,
              List.length_nil] at hk
            omega
          subst hk2
          exact ⟨by simpa using h0, by simp⟩
        · simp [h1]
        · intro hall
          obtain ⟨u, hu⟩ := hall 1 (by norm_num)
          have hu' : call 1 (b :: brest) = IngResp.ok u := by simpa using hu
          rw [h1] at hu'
          simp at hu'
      · replace h1 : call 1 (b :: brest) = IngResp.ok u1 := by simpa using h1
        by_cases hu1 : u1 = []
        · subst hu1
          simp only [if_pos]
          refine ⟨rfl, by norm_num, ?_, ?_, fun _ => Or.inl trivial⟩
          · intro k hk
            have hk2 : k = 0 := by
              simp only [List.nil_append, List.length_append, List.length_cons,
                List.length_nil] at hk
              omega
            subst hk2
            exact ⟨by simpa using h0, by simp⟩
          · simp [h1]
        · simp only [if_neg hu1]
          obtain ⟨c, crest, rfl⟩ : ∃ c cs, u1 = c :: cs := by
            cases u1 with
            | nil => exact absurd rfl hu1
            | cons c cs => exact ⟨c, cs, rfl⟩
          simp only [retryGo]
          rcases h2 : call (0 + 1 + 1) (c :: crest) with m2 | u2
          · replace h2 : call 2 (c :: crest) = IngResp.fail m2 := by simpa using h2
            refine ⟨rfl, by norm_num, ?_, ?_, ?_⟩
            · intro k hk
              simp only [List.nil_append, List.length_append, List.length_cons,
                List.length_nil] at hk
              match k, hk with
              | 0, _ => exact ⟨by simpa using h0, by simp⟩
              | 1, _ => exact ⟨by simpa using h1, by simp⟩
              | k + 2, h => exact absurd h (by omega)
            · simp [h2]
            · intro hall
              obtain ⟨u, hu⟩ := hall 2 (by norm_num)
              have hu' : call 2 (c :: crest) = IngResp.ok u := by simpa using hu
              rw [h2] at hu'
              simp at hu'
          · replace h2 : call 2 (c :: crest) = IngResp.ok u2 := by simpa using h2
            by_cases hu2 : u2 = []
            · subst hu2
              simp only [if_pos]
              refine ⟨rfl, by norm_num, ?_, ?_, fun _ => Or.inl trivial⟩
              · intro k hk
                simp only [List.nil_append, List.length_append, List.length_cons,
                  List.length_nil] at hk
                match k, hk with
                | 0, _ => exact ⟨by simpa using h0, by simp⟩
                | 1, _ => exact ⟨by simpa using h1, by simp⟩
                | k + 2, h => exact absurd h (by omega)
              · simp [h2]
            · simp only [if_neg hu2, retryGo]
              refine ⟨rfl, by norm_num, ?_, ?_, ?_⟩
              · intro k hk
                simp only [List.nil_append, List.length_append, List.length_cons,
                  List.length_nil] at hk
                match k, hk with
                | 0, _ => exact ⟨by simpa using h0, by simp⟩
                | 1, _ => exact ⟨by simpa using h1, by simp⟩
                | k + 2, h => exact absurd h (by omega)
              · constructor
                · intro hok; exact absurd hok (by simp)
                · intro hcall
                  have hcall' : call 2 (c :: crest) = IngResp.ok [] := by simpa using hcall
                  rw [h2] at hcall'
                  simp only [IngResp.ok.injEq] at hcall'
                  exact absurd hcall' hu2
              · intro _
                refine Or.inr ⟨rfl, u2, hu2, by simpa using h2, rfl⟩

/-- Witness for the amended C7: a store that reports one unprocessed item on
the first call; the writer re-submits exactly that subset on the second call. -/
theorem ingest_retry_behavior_amended_witness :
    (executeBatchWriteWithRetry
        (fun k reqs => if k = 0 then IngResp.ok (reqs.drop 1) else IngResp.ok [])
        [Deduplicator.mkPaper "p1" "", Deduplicator.mkPaper "p2" ""]).2.head?
        = some [Deduplicator.mkPaper "p1" "", Deduplicator.mkPaper "p2" ""]
      ∧ (executeBatchWriteWithRetry
          (fun k reqs => if k = 0 then IngResp.ok (reqs.drop 1) else IngResp.ok [])
          [Deduplicator.mkPaper "p1" "", Deduplicator.mkPaper "p2" ""]).2.length ≤ 3
      ∧ ((fun k reqs => if k = 0 then IngResp.ok (reqs.drop 1) else IngResp.ok []) 0
            ((executeBatchWriteWithRetry
              (fun k reqs => if k = 0 then IngResp.ok (reqs.drop 1) else IngResp.ok [])
              [Deduplicator.mkPaper "p1" "", Deduplicator.mkPaper "p2" ""]).2.getD 0 [])
            = IngResp.ok ((executeBatchWriteWithRetry
              (fun k reqs => if k = 0 then IngResp.ok (reqs.drop 1) else IngResp.ok [])
              [Deduplicator.mkPaper "p1" "", Deduplicator.mkPaper "p2" ""]).2.getD 1 [])
          ∧ (executeBatchWriteWithRetry
              (fun k reqs => if k = 0 then IngResp.ok (reqs.drop 1) else IngResp.ok [])
              [Deduplicator.mkPaper "p1" "", Deduplicator.mkPaper "p2" ""]).2.getD 1 [] ≠ []) :=
  ⟨(ingest_retry_behavior_amended
      (fun k reqs => if k = 0 then IngResp.ok (reqs.drop 1) else IngResp.ok [])
      [Deduplicator.mkPaper "p1" "", Deduplicator.mkPaper "p2" ""] (by decide)).1,
    (ingest_retry_behavior_amended
      (fun k reqs => if k = 0 then IngResp.ok (reqs.drop 1) else IngResp.ok [])
      [Deduplicator.mkPaper "p1" "", Deduplicator.mkPaper "p2" ""] (by decide)).2.1,
    (ingest_retry_behavior_amended
      (fun k reqs => if k = 0 then IngResp.ok (reqs.drop 1) else IngResp.ok [])
      [Deduplicator.mkPaper "p1" "", Deduplicator.mkPaper "p2" ""] (by decide)).2.2.1 0
      (by decide)⟩

end DynamoWriter

/-- A vector record failing validation (empty primary key). -/
def invalidRecordExample : Storage.VectorRecord :=
  { paperID := ""
    vectorType := "title_abstract"
    embedding := [{ val := 0, isNaN := false }]
    embeddingMetadata :=
      { modelName := "v1", modelVersion := "v1", dimension := 1, textLength := 0,
        preprocessing := "p" }
    sourceText := { content := "", sourceFields := [], language := "en" }
    processingInfo := { createdAt := "", traceID := "t", processingTimeMs := 0 } }

/-- C5 counterexample: one record with an empty primary key. The claim predicts
ceil(1/25) = 1 store batch-write call, but the writer validates records first
and issues zero store calls for a chunk with no valid records. -/
theorem batch_writer_call_count_cex :
    (Storage.BatchStoreVectors (fun _ _ => Storage.StoreCall.ok 0)
        [invalidRecordExample]).callSizes.length = 0
      ∧ (([invalidRecordExample] : List Storage.VectorRecord).length + 24) / 25 = 1
      ∧ ¬((Storage.BatchStoreVectors (fun _ _ => Storage.StoreCall.ok 0)
          [invalidRecordExample]).callSizes.length
        = (([invalidRecordExample] : List Storage.VectorRecord).length + 24) / 25) := by
  decide

theorem processBatch_calls_of_valid (call : List Storage.VectorRecord → Storage.StoreCall)
    (chunk : List Storage.VectorRecord)
    (hval : ∀ r ∈ chunk, Storage.validateVectorRecord r = none) (hne : chunk ≠ []) :
    (Storage.processBatch call chunk).callSizes = [chunk.length] := by
  have hfil : chunk.filter (fun r => (Storage.validateVectorRecord r).isNone) = chunk := by
    apply List.filter_eq_self.mpr
    intro a ha
    simp [hval a ha]
  simp only [Storage.processBatch, hfil]
  rw [if_neg hne]
  cases call chunk <;> rfl

theorem storeChunks_sizes (call : Nat → List Storage.VectorRecord → Storage.StoreCall) :
    ∀ (chunks : List (List Storage.VectorRecord)) (idx : Nat)
      (acc : Storage.BatchWriteResult) (sizes : List Nat),
      (∀ ch ∈ chunks, (∀ r ∈ ch, Storage.validateVectorRecord r = none) ∧ ch ≠ []) →
      (Storage.storeChunks call idx chunks acc sizes).2 = sizes ++ chunks.map List.length := by
  intro chunks
  induction chunks with
  | nil => intro idx acc sizes _; simp [Storage.storeChunks]
  | cons ch rest ih =>
    intro idx acc sizes hall
    have h1 := hall ch (List.mem_cons_self ch rest)
    have herr := Storage.processBatch_err_none (call idx) ch
    have hsz := processBatch_calls_of_valid (call idx) ch h1.1 h1.2
    simp only [Storage.storeChunks, herr]
    rw [ih _ _ _ (fun c hc => hall c (List.mem_cons_of_mem _ hc)), hsz]
    simp

theorem processBatchW_happy (call : Nat → List Processor.Paper → DynamoWriter.IngResp)
    (chunk : List Processor.Paper) (hne : chunk ≠ []) (hlen : chunk.length ≤ 25)
    (hok : ∀ k reqs, call k reqs = DynamoWriter.IngResp.ok []) :
    DynamoWriter.processBatchW call chunk = (Except.ok (), [chunk]) := by
  obtain ⟨a, rest, rfl⟩ : ∃ a rs, chunk = a :: rs := by
    cases chunk with
    | nil => exact absurd rfl hne
    | cons a rs => exact ⟨a, rs, rfl⟩
  have h2 : ¬(25 < (a :: rest).length) := by omega
  simp only [List.length_cons] at hlen
  simp [DynamoWriter.processBatchW, DynamoWriter.executeBatchWriteWithRetry,
    DynamoWriter.retryGo, h2, hok]
  omega

theorem upsertLoop_happy (call : Nat → Nat → List Processor.Paper → DynamoWriter.IngResp)
    (hok : ∀ i k reqs, call i k reqs = DynamoWriter.IngResp.ok []) :
    ∀ (chunks : List (List Processor.Paper)) (idx : Nat) (sizes : List Nat),
      (∀ ch ∈ chunks, ch ≠ [] ∧ ch.length ≤ 25) →
      DynamoWriter.upsertLoop call idx chunks sizes
        = (Except.ok (), sizes ++ chunks.map List.length) := by
  intro chunks
  induction chunks with
  | nil => intro idx sizes _; simp [DynamoWriter.upsertLoop]
  | cons ch rest ih =>
    intro idx sizes hall
    have h1 := hall ch (List.mem_cons_self ch rest)
    have hpb := processBatchW_happy (call idx) ch h1.1 h1.2 (hok idx)
    simp only [DynamoWriter.upsertLoop, hpb]
    rw [ih _ _ (fun c hc => hall c (List.mem_cons_of_mem _ hc))]
    simp

/-- C5 (amended): both writers split the input into the ceil(N/25) consecutive
chunks of at most 25 items. When every record passes validation the vector
writer issues exactly one store call per chunk (sizes matching the chunks, so
ceil(N/25) calls each of at most 25 items; e.g. N=30 gives calls of sizes 25
and 5); the ingestion writer does the same provided the store fully processes
every call. A chunk whose records all fail validation issues no store call,
and ingestion-side unprocessed items trigger additional retry calls, so the
original unconditional count is corrected by these hypotheses. -/
theorem batch_writer_chunk_calls_amended
    (call : Nat → List Storage.VectorRecord → Storage.StoreCall)
    (records : List Storage.VectorRecord)
    (hval : ∀ r ∈ records, Storage.validateVectorRecord r = none)
    (ingCall : Nat → Nat → List Processor.Paper → DynamoWriter.IngResp)
    (papers : List Processor.Paper)
    (hok : ∀ i k reqs, ingCall i k reqs = DynamoWriter.IngResp.ok []) :
    (Storage.BatchStoreVectors call records).callSizes = (chunksOf 25 records).map List.length
      ∧ (chunksOf 25 records).length = (records.length + 24) / 25
      ∧ (∀ s ∈ (Storage.BatchStoreVectors call records).callSizes, s ≤ 25)
      ∧ (DynamoWriter.BatchUpsert ingCall papers).2 = (chunksOf 25 papers).map List.length
      ∧ (chunksOf 25 papers).length = (papers.length + 24) / 25
      ∧ (∀ s ∈ (DynamoWriter.BatchUpsert ingCall papers).2, s ≤ 25) := by
  have hv : (Storage.BatchStoreVectors call records).callSizes
      = (chunksOf 25 records).map List.length := by
    by_cases hr : records = []
    · subst hr; simp [Storage.BatchStoreVectors, chunksOf_nil]
    · simp only [Storage.BatchStoreVectors, if_neg hr]
      rw [storeChunks_sizes]
      · simp
      · intro ch hch
        obtain ⟨_, hne, hsub⟩ := chunksOf25_mem records ch hch
        exact ⟨fun r hr2 => hval r (hsub r hr2), hne⟩
  have hi : (DynamoWriter.BatchUpsert ingCall papers).2
      = (chunksOf 25 papers).map List.length := by
    by_cases hp : papers = []
    · subst hp; simp [DynamoWriter.BatchUpsert, chunksOf_nil]
    · simp only [DynamoWriter.BatchUpsert, if_neg hp]
      rw [upsertLoop_happy ingCall hok]
      · simp
      · intro ch hch
        obtain ⟨hle, hne, _⟩ := chunksOf25_mem papers ch hch
        exact ⟨hne, hle⟩
  refine ⟨hv, chunksOf25_length records, ?_, hi, chunksOf25_length papers, ?_⟩
  · intro s hs
    rw [hv] at hs
    obtain ⟨ch, hch, rfl⟩ := List.mem_map.mp hs
    exact (chunksOf25_mem records ch hch).1
  · intro s hs
    rw [hi] at hs
    obtain ⟨ch, hch, rfl⟩ := List.mem_map.mp hs
    exact (chunksOf25_mem papers ch hch).1

/-- Witness for the amended C5 at concrete inputs (the call-size and
chunk-count equalities instantiated at singleton inputs). -/
theorem batch_writer_chunk_calls_amended_witness :
    (Storage.BatchStoreVectors (fun _ _ => Storage.StoreCall.ok 0)
        [Storage.validRecordExample]).callSizes
        = (chunksOf 25 [Storage.validRecordExample]).map List.length
      ∧ (chunksOf 25 [Storage.validRecordExample]).length
          = (([Storage.validRecordExample] : List Storage.VectorRecord).length + 24) / 25
      ∧ (DynamoWriter.BatchUpsert (fun _ _ _ => DynamoWriter.IngResp.ok [])
          [Deduplicator.mkPaper "p1" ""]).2
          = (chunksOf 25 [Deduplicator.mkPaper "p1" ""]).map List.length
      ∧ (chunksOf 25 [Deduplicator.mkPaper "p1" ""]).length
          = (([Deduplicator.mkPaper "p1" ""] : List Processor.Paper).length + 24) / 25 :=
  ⟨(batch_writer_chunk_calls_amended (fun _ _ => Storage.StoreCall.ok 0)
      [Storage.validRecordExample] (by decide)
      (fun _ _ _ => DynamoWriter.IngResp.ok []) [Deduplicator.mkPaper "p1" ""]
      (fun _ _ _ => rfl)).1,
    (batch_writer_chunk_calls_amended (fun _ _ => Storage.StoreCall.ok 0)
      [Storage.validRecordExample] (by decide)
      (fun _ _ _ => DynamoWriter.IngResp.ok []) [Deduplicator.mkPaper "p1" ""]
      (fun _ _ _ => rfl)).2.1,
    (batch_writer_chunk_calls_amended (fun _ _ => Storage.StoreCall.ok 0)
      [Storage.validRecordExample] (by decide)
      (fun _ _ _ => DynamoWriter.IngResp.ok []) [Deduplicator.mkPaper "p1" ""]
      (fun _ _ _ => rfl)).2.2.2.1,
    (batch_writer_chunk_calls_amended (fun _ _ => Storage.StoreCall.ok 0)
      [Storage.validRecordExample] (by decide)
      (fun _ _ _ => DynamoWriter.IngResp.ok []) [Deduplicator.mkPaper "p1" ""]
      (fun _ _ _ => rfl)).2.2.2.2.1⟩

namespace Retriever

/-- retriever.Paper. -/
structure Paper where
  paperID : String
  source : String
  title : String
  abstract : String
  authors : List String
  publishedDate : String
  categories : List String
  traceID : String
  batchTimestamp : String
deriving DecidableEq, Repr, Inhabited

/-- retriever.CombinedText. -/
structure CombinedText where
  paperID : String
  text : String
deriving DecidableEq, Repr, Inhabited

/-- validatePaper (retriever, lines 68-82). -/
def validatePaper (paper : Paper) : Option String :=
  if paper.paperID = "" then some "paper_id is empty"
  else if paper.traceID = "" then some "trace_id is empty"
  else if paper.title = "" ∧ paper.abstract = "" then some "both title and abstract are empty"
  else none

/-- One page response of the DynamoDB Query call: a hard error, or a page of
items (already unmarshalled — unmarshalling cannot fail for this record type)
together with whether a pagination cursor (LastEvaluatedKey) is present. The
cursor is opaque and passed back unchanged, so the oracle is indexed by page
number. -/
inductive QueryResp where
  | fail (msg : String)
  | ok (items : List Paper) (hasMore : Bool)
deriving DecidableEq, Repr

/-- Page loop of GetCombinedTextsByTraceID (retriever, lines 100-190):
`remaining = 100 - pageCount` encodes the `pageCount < maxPages` guard with
`maxPages = 100`; each page's records are validated and the valid ones
appended; the loop ends when the store returns no cursor, a query fails, or
the page ceiling is reached (the ceiling is only a logged warning, processing
continues with what was retrieved). The second component counts the Query
calls issued. -/
def retrieveGo (query : Nat → QueryResp) : Nat → Nat → List Paper →
    Except String (List Paper) × Nat
  | 0, pageCount, acc => (.ok acc, pageCount)
  | remaining + 1, pageCount, acc =>
    match query pageCount with
    | .fail m =>
        (.error ("failed to query papers by traceID on page " ++ toString (pageCount + 1)
          ++ ": " ++ m), pageCount + 1)
    | .ok items hasMore =>
        let validPapers := items.filter (fun p => (validatePaper p).isNone)
        if hasMore then retrieveGo query remaining (pageCount + 1) (acc ++ validPapers)
        else (.ok (acc ++ validPapers), pageCount + 1)

/-- Combined-text projection (retriever, lines 224-238): trimmed nonempty
title and abstract joined with ". ". -/
def combineText (paper : Paper) : CombinedText :=
  { paperID := paper.paperID
    text := String.intercalate ". "
      ((if paper.title ≠ "" then [paper.title.trim] else [])
        ++ (if paper.abstract ≠ "" then [paper.abstract.trim] else [])) }

/-- GetCombinedTextsByTraceID (retriever, lines 87-248): an empty trace id
fails immediately with zero queries; otherwise up to 100 pages are fetched,
records failing validation are dropped, and surviving records — skipping
those with both title and abstract empty, as in the source (already excluded
by validation) — are projected to combined texts. -/
def GetCombinedTextsByTraceID (query : Nat → QueryResp) (traceID : String) :
    Except String (List CombinedText) × Nat :=
  if traceID = "" then (.error "traceID cannot be empty", 0)
  else
    match retrieveGo query 100 0 [] with
    | (.error m, n) => (.error m, n)
    | (.ok allPapers, n) =>
      if allPapers = [] then (.ok [], n)
      else
        (.ok ((allPapers.filter (fun p => !(p.title == "" && p.abstract == ""))).map
          combineText), n)

/-- Items of one page response (empty for a failed call). -/
def pageItems : QueryResp → List Paper
  | .fail _ => []
  | .ok items _ => items

/-- The valid records collected from `n` consecutive pages starting at page
index `start`. -/
def collectFrom (query : Nat → QueryResp) (start n : Nat) : List Paper :=
  ((List.range n).map (fun j =>
    (pageItems (query (start + j))).filter (fun p => (validatePaper p).isNone))).flatten

theorem collectFrom_zero (query : Nat → QueryResp) (start : Nat) :
    collectFrom query start 0 = [] := by
  simp [collectFrom]

theorem collectFrom_succ (query : Nat → QueryResp) (start n : Nat) :
    collectFrom query start (n + 1)
      = (pageItems (query start)).filter (fun p => (validatePaper p).isNone)
        ++ collectFrom query (start + 1) n := by
  have hmap : (List.range n).map ((fun j =>
        (pageItems (query (start + j))).filter (fun p => (validatePaper p).isNone)) ∘ Nat.succ)
      = (List.range n).map (fun j =>
        (pageItems (query (start + 1 + j))).filter (fun p => (validatePaper p).isNone)) := by
    apply List.map_congr_left
    intro a _
    have hadd : start + Nat.succ a = start + 1 + a := by omega
    simp [Function.comp, hadd]
  simp only [collectFrom, List.range_succ_eq_map, List.map_cons, List.flatten_cons,
    List.map_map, Nat.add_zero, hmap]

theorem retrieveGo_count_le (query : Nat → QueryResp) :
    ∀ (remaining pageCount : Nat) (acc : List Paper),
      (retrieveGo query remaining pageCount acc).2 ≤ pageCount + remaining := by
  intro remaining
  induction remaining with
  | zero => intro pageCount acc; simp [retrieveGo]
  | succ r ih =>
    intro pageCount acc
    simp only [retrieveGo]
    rcases query pageCount with m | ⟨items, hasMore⟩
    · show pageCount + 1 ≤ pageCount + (r + 1)
      omega
    · cases hasMore with
      | true =>
        simp only [if_pos]
        have := ih (pageCount + 1) (acc ++ items.filter (fun p => (validatePaper p).isNone))
        omega
      | false =>
        show pageCount + 1 ≤ pageCount + (r + 1)
        omega

theorem retrieveGo_all_more (query : Nat → QueryResp)
    (h : ∀ k, ∃ items, query k = QueryResp.ok items true) :
    ∀ (remaining pageCount : Nat) (acc : List Paper),
      (retrieveGo query remaining pageCount acc).1
          = .ok (acc ++ collectFrom query pageCount remaining)
        ∧ (retrieveGo query remaining pageCount acc).2 = pageCount + remaining := by
  intro remaining
  induction remaining with
  | zero =>
    intro pageCount acc
    simp [retrieveGo, collectFrom_zero]
  | succ r ih =>
    intro pageCount acc
    obtain ⟨items, hq⟩ := h pageCount
    simp only [retrieveGo, hq, if_pos]
    obtain ⟨ih1, ih2⟩ := ih (pageCount + 1)
      (acc ++ items.filter (fun p => (validatePaper p).isNone))
    refine ⟨?_, by rw [ih2]; omega⟩
    rw [ih1, collectFrom_succ]
    simp only [hq, pageItems, List.append_assoc]

/-- C8: the paginated retriever issues at most 100 page queries for any trace
id and store behavior; against a store that always returns a next cursor it
performs exactly 100 queries, treats the ceiling as a warning rather than an
error (the result is `ok`, not `error`), and returns the combined texts
assembled from the 100 pages it did retrieve. -/
theorem pagination_ceiling (query : Nat → QueryResp) (traceID : String) :
    (GetCombinedTextsByTraceID query traceID).2 ≤ 100
      ∧ (traceID ≠ "" → (∀ k, ∃ items, query k = QueryResp.ok items true) →
          (GetCombinedTextsByTraceID query traceID).2 = 100
            ∧ (GetCombinedTextsByTraceID query traceID).1
              = .ok (((collectFrom query 0 100).filter
                  (fun p => !(p.title == "" && p.abstract == ""))).map combineText)) := by
  by_cases ht : traceID = ""
  · subst ht
    exact ⟨by simp [GetCombinedTextsByTraceID], fun hne _ => absurd rfl hne⟩
  · have hcount : (GetCombinedTextsByTraceID query traceID).2
        = (retrieveGo query 100 0 []).2 := by
      simp only [GetCombinedTextsByTraceID, if_neg ht]
      rcases retrieveGo query 100 0 [] with ⟨res, n⟩
      rcases res with m | allPapers
      · rfl
      · dsimp only
        split <;> rfl
    constructor
    · rw [hcount]
      have hc := retrieveGo_count_le query 100 0 []
      simpa using hc
    · intro _ hall
      obtain ⟨h1, h2⟩ := retrieveGo_all_more query hall 100 0 []
      simp only [List.nil_append] at h1
      have hpair : retrieveGo query 100 0 []
          = (Except.ok (collectFrom query 0 100), 100) := Prod.ext_iff.mpr ⟨h1, h2⟩
      refine ⟨by rw [hcount, hpair], ?_⟩
      simp only [GetCombinedTextsByTraceID, if_neg ht, hpair]
      by_cases hp : collectFrom query 0 100 = []
      · rw [if_pos hp, hp]
        simp
      · rw [if_neg hp]

/-- Witness for C8: a store that always answers with an empty page and a
next cursor; the retriever performs exactly 100 queries and returns ok. -/
theorem pagination_ceiling_witness :
    (GetCombinedTextsByTraceID (fun _ => QueryResp.ok [] true) "t").2 ≤ 100
      ∧ (GetCombinedTextsByTraceID (fun _ => QueryResp.ok [] true) "t").2 = 100
      ∧ (GetCombinedTextsByTraceID (fun _ => QueryResp.ok [] true) "t").1
        = .ok (((collectFrom (fun _ => QueryResp.ok [] true) 0 100).filter
            (fun p => !(p.title == "" && p.abstract == ""))).map combineText) :=
  ⟨(pagination_ceiling (fun _ => QueryResp.ok [] true) "t").1,
    (pagination_ceiling (fun _ => QueryResp.ok [] true) "t").2 (by decide)
      (fun _ => ⟨[], rfl⟩)⟩

end Retriever

/-- Substring test on character lists: does `needle` occur contiguously? -/
def subListOf (needle : List Char) : List Char → Bool
  | [] => needle.isEmpty
  | c :: rest => needle.isPrefixOf (c :: rest) || subListOf needle rest

/-- Substring containment on strings; used to state that an error message
carries the trace identifier (Go `strings.Contains`). -/
def strContains (hay needle : String) : Bool := subListOf needle.toList hay.toList

theorem isPrefixOf_append_self (n b : List Char) : n.isPrefixOf (n ++ b) = true := by
  induction n with
  | nil =>
    show List.isPrefixOf [] b = true
    cases b <;> rfl
  | cons c cs ih => simp [List.isPrefixOf, ih]

theorem isPrefixOf_extend (t : List Char) : ∀ (s y : List Char),
    t.isPrefixOf s = true → t.isPrefixOf (s ++ y) = true := by
  induction t with
  | nil =>
    intro s y _
    rcases hsy : s ++ y with _ | ⟨d, ds⟩ <;> rfl
  | cons c cs ih =>
    intro s y h
    cases s with
    | nil => simp [List.isPrefixOf] at h
    | cons d ds =>
      simp only [List.isPrefixOf, Bool.and_eq_true] at h
      simp only [List.cons_append, List.isPrefixOf, Bool.and_eq_true]
      exact ⟨h.1, ih ds y h.2⟩

theorem subListOf_nil_needle (h : List Char) : subListOf [] h = true := by
  induction h with
  | nil => rfl
  | cons c rest ih => simp [subListOf, List.isPrefixOf]

theorem subListOf_of_isPrefixOf (t s : List Char) (h : t.isPrefixOf s = true) :
    subListOf t s = true := by
  cases s with
  | nil =>
    cases t with
    | nil => rfl
    | cons c cs => simp [List.isPrefixOf] at h
  | cons c rest => simp [subListOf, h]

theorem subListOf_append_self (a n b : List Char) : subListOf n (a ++ n ++ b) = true := by
  induction a with
  | nil =>
    simp only [List.nil_append]
    exact subListOf_of_isPrefixOf n (n ++ b) (isPrefixOf_append_self n b)
  | cons c a' ih =>
    simp only [List.cons_append, subListOf, Bool.or_eq_true]
    exact Or.inr ih

theorem subListOf_append_right (t s y : List Char) (h : subListOf t s = true) :
    subListOf t (s ++ y) = true := by
  induction s with
  | nil =>
    simp only [subListOf, List.isEmpty_iff] at h
    subst h
    exact subListOf_nil_needle y
  | cons c s' ih =>
    simp only [subListOf, Bool.or_eq_true] at h
    rcases h with h | h
    · simp only [List.cons_append, subListOf, Bool.or_eq_true]
      exact Or.inl (isPrefixOf_extend t (c :: s') y h)
    · simp only [List.cons_append, subListOf, Bool.or_eq_true]
      exact Or.inr (ih h)

theorem subListOf_append_left (t x s : List Char) (h : subListOf t s = true) :
    subListOf t (x ++ s) = true := by
  induction x with
  | nil => simpa using h
  | cons c x' ih =>
    simp only [List.cons_append, subListOf, Bool.or_eq_true]
    exact Or.inr ih

theorem strContains_append_self (a t b : String) : strContains (a ++ t ++ b) t = true := by
  unfold strContains
  have hl : (a ++ t ++ b).toList = a.toList ++ t.toList ++ b.toList := by
    simp [String.toList]
  rw [hl]
  exact subListOf_append_self a.toList t.toList b.toList

theorem strContains_append_right (s y t : String) (h : strContains s t = true) :
    strContains (s ++ y) t = true := by
  unfold strContains at h ⊢
  have hl : (s ++ y).toList = s.toList ++ y.toList := by simp [String.toList]
  rw [hl]
  exact subListOf_append_right t.toList s.toList y.toList h

theorem strContains_append_left (x s t : String) (h : strContains s t = true) :
    strContains (x ++ s) t = true := by
  unfold strContains at h ⊢
  have hl : (x ++ s).toList = x.toList ++ s.toList := by simp [String.toList]
  rw [hl]
  exact subListOf_append_left t.toList x.toList s.toList h

theorem strContains_pre (p t : String) : strContains (p ++ t) t = true := by
  have h := strContains_append_self p t ""
  have he : p ++ t ++ "" = p ++ t := by simp
  rwa [he] at h

namespace Coordinator

/-- main.ProcessingStatus; the Go constants are the strings "started",
"in_progress", "completed", "failed" and "partial_success". `Partial` models
`StatusPartial`. -/
inductive ProcessingStatus where
  | started
  | inProgress
  | completed
  | failed
  | Partial
deriving DecidableEq, Repr

/-- client.EmbeddingResponse, as consumed by the coordinator through
`VectorAPIClientInterface`. -/
structure EmbeddingResponse where
  embedding : List F64
  modelVersion : String
  dimension : Int
  processingTimeMs : Int
deriving DecidableEq, Repr, Inhabited

/-- main.ProcessingResult. The wall-clock fields (`processing_time_ms`,
`timestamp`) are abstracted away; all claims are about the remaining fields. -/
structure ProcessingResult where
  traceID : String
  status : ProcessingStatus
  totalPapers : Nat
  embeddingsGenerated : Nat
  vectorsStored : Nat
  failedEmbeddings : Nat
  failedStorage : Nat
  errorMessage : String
deriving DecidableEq, Repr

/-- ProcessingError.Error() without a cause: "stage: message". -/
def mkProcErr (stage msg : String) : String := stage ++ ": " ++ msg

/-- ProcessingError.Error() with a cause: "stage: message (caused by: cause)". -/
def mkProcErrCause (stage msg cause : String) : String :=
  stage ++ ": " ++ msg ++ " (caused by: " ++ cause ++ ")"

/-- Instrumentation of one processVectorization run: number of store Query
calls, number of embedding-service calls, sizes of the vector-store
BatchWriteItem calls, and whether the run reached the storage step
(the `BatchStoreVectors` call). -/
structure PipelineTrace where
  queryCalls : Nat
  embedCalls : Nat
  storeCallSizes : List Nat
  reachedStorage : Bool
deriving DecidableEq, Repr

structure EmbedOut where
  records : List Storage.VectorRecord
  generated : Nat
  failedCount : Nat
deriving DecidableEq, Repr

/-- Embedding fan-out loop of processVectorization (main, lines 1482-1534):
strictly sequential; a per-item failure is counted and the loop continues with
the remaining items; a success appends the record built by
`CreateVectorRecord` (the wall-clock per-item duration is abstracted to 0).
The embedding client is an oracle indexed by item position. -/
def embedLoop (embed : Nat → Retriever.CombinedText → Except String EmbeddingResponse)
    (traceID : String) : Nat → List Retriever.CombinedText → EmbedOut → EmbedOut
  | _, [], st => st
  | i, t :: rest, st =>
    match embed i t with
    | .error _ =>
        embedLoop embed traceID (i + 1) rest
          { st with failedCount := st.failedCount + 1 }
    | .ok resp =>
        embedLoop embed traceID (i + 1) rest
          { st with
            records := st.records
              ++ [Storage.CreateVectorRecord t.paperID t.text traceID resp.embedding
                    resp.modelVersion 0],
            generated := st.generated + 1 }

structure PVOut where
  result : ProcessingResult
  err : Option String
  trace : PipelineTrace
deriving DecidableEq, Repr

/-- Constructor shorthand for `PipelineTrace`. -/
def mkTrace (q e : Nat) (sizes : List Nat) (reached : Bool) : PipelineTrace :=
  { queryCalls := q, embedCalls := e, storeCallSizes := sizes, reachedStorage := reached }

/-- Constructor shorthand for `ProcessingResult` (fields in declaration
order: traceID, status, total, generated, stored, failedEmbeddings,
failedStorage, errorMessage). -/
def mkResult (tid : String) (st : ProcessingStatus) (total gen stored fe fs : Nat)
    (msg : String) : ProcessingResult :=
  { traceID := tid, status := st, totalPapers := total, embeddingsGenerated := gen,
    vectorsStored := stored, failedEmbeddings := fe, failedStorage := fs,
    errorMessage := msg }

/-- processVectorization (main, lines 1409-1648), composed with the concrete
retriever and vector storage of the production wiring (`handleStepFunction`);
the store query client, the embedding client and the vector-store write
client are oracles. `err` is the Go error return; the result struct is always
returned alongside it, mirroring the dual-return contract. -/
def processVectorization (query : Nat → Retriever.QueryResp)
    (embed : Nat → Retriever.CombinedText → Except String EmbeddingResponse)
    (store : Nat → List Storage.VectorRecord → Storage.StoreCall)
    (traceID : String) : PVOut :=
  if traceID = "" then
    let e := mkProcErr "validation" "traceID cannot be empty"
    { result := mkResult traceID .failed 0 0 0 0 0 e, err := some e,
      trace := mkTrace 0 0 [] false }
  else
    match Retriever.GetCombinedTextsByTraceID query traceID with
    | (.error m, n) =>
      let e := mkProcErrCause "data_retrieval" "failed to retrieve papers for vectorization" m
      { result := mkResult traceID .failed 0 0 0 0 0 e, err := some e,
        trace := mkTrace n 0 [] false }
    | (.ok combinedTexts, n) =>
      if combinedTexts.length = 0 then
        { result := mkResult traceID .completed 0 0 0 0 0 "", err := none,
          trace := mkTrace n 0 [] false }
      else
        let eo := embedLoop embed traceID 0 combinedTexts
          { records := [], generated := 0, failedCount := 0 }
        if eo.records = [] then
          let e := mkProcErr "embedding_generation" "no embeddings were generated successfully"
          { result := mkResult traceID .failed combinedTexts.length eo.generated 0
              eo.failedCount 0 e,
            err := some e,
            trace := mkTrace n combinedTexts.length [] false }
        else
          let bsv := Storage.BatchStoreVectors store eo.records
          match bsv.err with
          | some m =>
            let e := mkProcErrCause "vector_storage" "failed to store vector records" m
            { result := mkResult traceID .failed combinedTexts.length eo.generated 0
                eo.failedCount 0 e,
              err := some e,
              trace := mkTrace n combinedTexts.length bsv.callSizes true }
          | none =>
            let tr : PipelineTrace := mkTrace n combinedTexts.length bsv.callSizes true
            if eo.failedCount = 0 ∧ bsv.result.failedItems.length = 0 then
              { result := mkResult traceID .completed combinedTexts.length eo.generated
                  bsv.result.successCount eo.failedCount bsv.result.failedItems.length "",
                err := none, trace := tr }
            else if 0 < bsv.result.successCount then
              { result := mkResult traceID .Partial combinedTexts.length eo.generated
                  bsv.result.successCount eo.failedCount bsv.result.failedItems.length "",
                err := some (mkProcErr "partial_processing"
                  ("partial vectorization failure for traceID " ++ traceID ++ ": "
                    ++ toString bsv.result.successCount ++ "/"
                    ++ toString combinedTexts.length ++ " papers processed successfully")),
                trace := tr }
            else
              { result := mkResult traceID .failed combinedTexts.length eo.generated
                  bsv.result.successCount eo.failedCount bsv.result.failedItems.length
                  "all vectorization operations failed",
                err := some (mkProcErr "overall_processing"
                  ("vectorization failed for traceID " ++ traceID ++ ": "
                    ++ "all vectorization operations failed")),
                trace := tr }

theorem embedLoop_records_generated
    (embed : Nat → Retriever.CombinedText → Except String EmbeddingResponse)
    (traceID : String) :
    ∀ (texts : List Retriever.CombinedText) (i : Nat) (st : EmbedOut),
      (embedLoop embed traceID i texts st).records.length + st.generated
        = (embedLoop embed traceID i texts st).generated + st.records.length := by
  intro texts
  induction texts with
  | nil => intro i st; simp only [embedLoop]; omega
  | cons t rest ih =>
    intro i st
    simp only [embedLoop]
    rcases embed i t with e | r
    · dsimp only
      have h := ih (i + 1) { st with failedCount := st.failedCount + 1 }
      simpa using h
    · dsimp only
      have h := ih (i + 1)
        { st with
          records := st.records
            ++ [Storage.CreateVectorRecord t.paperID t.text traceID r.embedding
                  r.modelVersion 0],
          generated := st.generated + 1 }
      simp only [List.length_append, List.length_cons, List.length_nil] at h
      omega

/-- C1: for every vectorization invocation — composed with the concrete vector
storage, under the DynamoDB store contract — that reaches the storage step,
the final status is `completed` exactly when both the embedding-failure count
and the storage-failure count are zero, `partial` exactly when at least one
vector was stored but at least one embedding or storage failure occurred, and
`failed` exactly when zero vectors were stored. -/
theorem processVectorization_status_classification
    (query : Nat → Retriever.QueryResp)
    (embed : Nat → Retriever.CombinedText → Except String EmbeddingResponse)
    (store : Nat → List Storage.VectorRecord → Storage.StoreCall)
    (traceID : String)
    (hclient : Storage.ClientOK store)
    (hreach : (processVectorization query embed store traceID).trace.reachedStorage = true) :
    ((processVectorization query embed store traceID).result.status = .completed
        ↔ (processVectorization query embed store traceID).result.failedEmbeddings = 0
          ∧ (processVectorization query embed store traceID).result.failedStorage = 0)
      ∧ ((processVectorization query embed store traceID).result.status = .Partial
        ↔ 0 < (processVectorization query embed store traceID).result.vectorsStored
          ∧ (0 < (processVectorization query embed store traceID).result.failedEmbeddings
              ∨ 0 < (processVectorization query embed store traceID).result.failedStorage))
      ∧ ((processVectorization query embed store traceID).result.status = .failed
        ↔ (processVectorization query embed store traceID).result.vectorsStored = 0) := by
  simp only [processVectorization] at hreach ⊢
  by_cases ht : traceID = ""
  · rw [if_pos ht] at hreach
    simp [mkTrace] at hreach
  · rw [if_neg ht] at hreach ⊢
    rcases hg : Retriever.GetCombinedTextsByTraceID query traceID with ⟨gres, n⟩
    rcases gres with m | texts
    · rw [hg] at hreach
      simp [mkTrace] at hreach
    · rw [hg] at hreach
      dsimp only at hreach ⊢
      by_cases hlen : texts.length = 0
      · rw [if_pos hlen] at hreach
        simp [mkTrace] at hreach
      · rw [if_neg hlen] at hreach ⊢
        by_cases hrec : (embedLoop embed traceID 0 texts
            { records := [], generated := 0, failedCount := 0 }).records = []
        · rw [if_pos hrec] at hreach
          simp [mkTrace] at hreach
        · rw [if_neg hrec] at hreach ⊢
          have herr := Storage.BatchStoreVectors_err_none store
            (embedLoop embed traceID 0 texts
              { records := [], generated := 0, failedCount := 0 }).records
          rw [herr] at hreach ⊢
          have hacc := Storage.BatchStoreVectors_accounting store
            (embedLoop embed traceID 0 texts
              { records := [], generated := 0, failedCount := 0 }).records hclient
          have hpos : 0 < (embedLoop embed traceID 0 texts
              { records := [], generated := 0, failedCount := 0 }).records.length :=
            List.length_pos.mpr hrec
          by_cases hc : (embedLoop embed traceID 0 texts
                { records := [], generated := 0, failedCount := 0 }).failedCount = 0
              ∧ (Storage.BatchStoreVectors store
                  (embedLoop embed traceID 0 texts
                    { records := [], generated := 0, failedCount := 0 }).records
                  ).result.failedItems.length = 0
          · rw [if_pos hc]
            refine ⟨?_, ?_, ?_⟩
            · simp [mkResult, hc.1, hc.2]
            · simp [mkResult, hc.1, hc.2]
            · simp only [mkResult]
              refine iff_of_false (by simp) ?_
              omega
          · rw [if_neg hc]
            by_cases hs : 0 < (Storage.BatchStoreVectors store
                (embedLoop embed traceID 0 texts
                  { records := [], generated := 0, failedCount := 0 }).records
                ).result.successCount
            · rw [if_pos hs]
              refine ⟨?_, ?_, ?_⟩
              · simp only [mkResult]
                refine iff_of_false (by simp) ?_
                omega
              · simp only [mkResult]
                refine iff_of_true (by simp) ?_
                omega
              · simp only [mkResult]
                refine iff_of_false (by simp) ?_
                omega
            · rw [if_neg hs]
              refine ⟨?_, ?_, ?_⟩
              · simp only [mkResult]
                refine iff_of_false (by simp) ?_
                omega
              · simp only [mkResult]
                refine iff_of_false (by simp) ?_
                omega
              · simp only [mkResult]
                refine iff_of_true (by simp) ?_
                omega

/-- A concrete valid paper for witnesses. -/
def wPaper : Retriever.Paper :=
  { paperID := "p1", source := "", title := "T", abstract := "A", authors := [],
    publishedDate := "", categories := [], traceID := "tr", batchTimestamp := "" }

/-- Witness query oracle: one page holding one valid paper, no cursor. -/
def wQuery : Nat → Retriever.QueryResp := fun _ => Retriever.QueryResp.ok [wPaper] false

/-- Witness embedding oracle: always succeeds with a 1-dimensional vector. -/
def wEmbed : Nat → Retriever.CombinedText → Except String EmbeddingResponse :=
  fun _ _ => Except.ok
    { embedding := [{ val := 1, isNaN := false }], modelVersion := "v1", dimension := 1,
      processingTimeMs := 0 }

/-- Witness store oracle: every batch write fully succeeds. -/
def wStore : Nat → List Storage.VectorRecord → Storage.StoreCall :=
  fun _ _ => Storage.StoreCall.ok 0

/-- A second valid paper for witnesses. -/
def wPaper2 : Retriever.Paper :=
  { paperID := "p2", source := "", title := "U", abstract := "B", authors := [],
    publishedDate := "", categories := [], traceID := "tr", batchTimestamp := "" }

/-- Witness query oracle with two papers on one page. -/
def wQuery2 : Nat → Retriever.QueryResp :=
  fun _ => Retriever.QueryResp.ok [wPaper, wPaper2] false

/-- Witness for C1: a fully successful run reaching the storage step. -/
theorem processVectorization_status_classification_witness :
    ((processVectorization wQuery wEmbed wStore "tr").result.status = .completed
        ↔ (processVectorization wQuery wEmbed wStore "tr").result.failedEmbeddings = 0
          ∧ (processVectorization wQuery wEmbed wStore "tr").result.failedStorage = 0)
      ∧ ((processVectorization wQuery wEmbed wStore "tr").result.status = .Partial
        ↔ 0 < (processVectorization wQuery wEmbed wStore "tr").result.vectorsStored
          ∧ (0 < (processVectorization wQuery wEmbed wStore "tr").result.failedEmbeddings
              ∨ 0 < (processVectorization wQuery wEmbed wStore "tr").result.failedStorage))
      ∧ ((processVectorization wQuery wEmbed wStore "tr").result.status = .failed
        ↔ (processVectorization wQuery wEmbed wStore "tr").result.vectorsStored = 0) :=
  processVectorization_status_classification wQuery wEmbed wStore "tr"
    (fun _ _ => Nat.zero_le _) (by decide)

/-- C2 counterexample: a run whose data retrieval fails ends `failed` with a
non-nil error, but that error's text does not contain the trace id "zzz" —
contradicting the claim that the error text always contains the trace id on
non-complete outcomes. -/
theorem processVectorization_error_traceid_cex :
    ((processVectorization (fun _ => Retriever.QueryResp.fail "database connection failed")
        (fun _ _ => Except.error "e") (fun _ _ => Storage.StoreCall.ok 0) "zzz").result.status
        = ProcessingStatus.failed)
      ∧ ((processVectorization (fun _ => Retriever.QueryResp.fail "database connection failed")
          (fun _ _ => Except.error "e") (fun _ _ => Storage.StoreCall.ok 0) "zzz").err.isSome
          = true)
      ∧ strContains ((processVectorization
          (fun _ => Retriever.QueryResp.fail "database connection failed")
          (fun _ _ => Except.error "e") (fun _ _ => Storage.StoreCall.ok 0) "zzz").err.getD "")
          "zzz" = false := by
  decide

/-- C2 (amended): a non-complete outcome (`partial` or `failed`) is returned
exactly when the Go error is non-nil, and the result struct is always
returned alongside it; the error text is guaranteed to contain the trace id
for every `partial` outcome and for `failed` outcomes classified after the
storage step, while failures of earlier stages (validation, retrieval,
no-embeddings) carry a non-nil error that need not embed the trace id. -/
theorem processVectorization_dual_return_amended (query : Nat → Retriever.QueryResp)
    (embed : Nat → Retriever.CombinedText → Except String EmbeddingResponse)
    (store : Nat → List Storage.VectorRecord → Storage.StoreCall) (traceID : String) :
    (((processVectorization query embed store traceID).result.status = .Partial
        ∨ (processVectorization query embed store traceID).result.status = .failed)
      ↔ (processVectorization query embed store traceID).err.isSome = true)
    ∧ ((processVectorization query embed store traceID).result.status = .Partial →
        strContains ((processVectorization query embed store traceID).err.getD "") traceID
          = true)
    ∧ ((processVectorization query embed store traceID).trace.reachedStorage = true →
        (processVectorization query embed store traceID).result.status = .failed →
        strContains ((processVectorization query embed store traceID).err.getD "") traceID
          = true) := by
  simp only [processVectorization]
  by_cases ht : traceID = ""
  · rw [if_pos ht]
    refine ⟨by simp [mkResult], ?_, ?_⟩
    · intro h
      simp [mkResult] at h
    · intro h
      simp [mkTrace] at h
  · rw [if_neg ht]
    rcases hg : Retriever.GetCombinedTextsByTraceID query traceID with ⟨gres, n⟩
    rcases gres with m | texts
    · refine ⟨by simp [mkResult], ?_, ?_⟩
      · intro h
        simp [mkResult] at h
      · intro h
        simp [mkTrace] at h
    · dsimp only
      by_cases hlen : texts.length = 0
      · rw [if_pos hlen]
        refine ⟨by simp [mkResult], ?_, ?_⟩
        · intro h
          simp [mkResult] at h
        · intro h
          simp [mkTrace] at h
      · rw [if_neg hlen]
        by_cases hrec : (embedLoop embed traceID 0 texts
            { records := [], generated := 0, failedCount := 0 }).records = []
        · rw [if_pos hrec]
          refine ⟨by simp [mkResult], ?_, ?_⟩
          · intro h
            simp [mkResult] at h
          · intro h
            simp [mkTrace] at h
        · rw [if_neg hrec]
          have herr := Storage.BatchStoreVectors_err_none store
            (embedLoop embed traceID 0 texts
              { records := [], generated := 0, failedCount := 0 }).records
          rw [herr]
          by_cases hc : (embedLoop embed traceID 0 texts
                { records := [], generated := 0, failedCount := 0 }).failedCount = 0
              ∧ (Storage.BatchStoreVectors store
                  (embedLoop embed traceID 0 texts
                    { records := [], generated := 0, failedCount := 0 }).records
                  ).result.failedItems.length = 0
          · rw [if_pos hc]
            refine ⟨by simp [mkResult], ?_, ?_⟩
            · intro h
              simp [mkResult] at h
            · intro _ h
              simp [mkResult] at h
          · rw [if_neg hc]
            by_cases hs : 0 < (Storage.BatchStoreVectors store
                (embedLoop embed traceID 0 texts
                  { records := [], generated := 0, failedCount := 0 }).records
                ).result.successCount
            · rw [if_pos hs]
              refine ⟨by simp [mkResult], ?_, ?_⟩
              · intro _
                have c0 := strContains_pre "partial vectorization failure for traceID " traceID
                have c1 := strContains_append_right _ ": " _ c0
                have c2 := strContains_append_right _
                  (toString (Storage.BatchStoreVectors store
                    (embedLoop embed traceID 0 texts
                      { records := [], generated := 0, failedCount := 0 }).records
                    ).result.successCount) _ c1
                have c3 := strContains_append_right _ "/" _ c2
                have c4 := strContains_append_right _ (toString texts.length) _ c3
                have c5 := strContains_append_right _ " papers processed successfully" _ c4
                simp only [mkProcErr, Option.getD_some]
                exact strContains_append_left ("partial_processing" ++ ": ") _ _ c5
              · intro _ h
                simp [mkResult] at h
            · rw [if_neg hs]
              refine ⟨by simp [mkResult], ?_, ?_⟩
              · intro h
                simp [mkResult] at h
              · intro _ _
                have c0 := strContains_pre "vectorization failed for traceID " traceID
                have c1 := strContains_append_right _ ": " _ c0
                have c2 := strContains_append_right _
                  "all vectorization operations failed" _ c1
                simp only [mkProcErr, Option.getD_some]
                exact strContains_append_left ("overall_processing" ++ ": ") _ _ c2

/-- Witness for the amended C2: a run with one embedding failure and one
stored vector ends `partial` and its error text contains the trace id. -/
theorem processVectorization_dual_return_amended_witness :
    ((((processVectorization wQuery2
          (fun i t => if i = 0 then wEmbed i t else Except.error "boom")
          wStore "tr").result.status = ProcessingStatus.Partial
        ∨ (processVectorization wQuery2
            (fun i t => if i = 0 then wEmbed i t else Except.error "boom")
            wStore "tr").result.status = ProcessingStatus.failed)
      ↔ (processVectorization wQuery2
          (fun i t => if i = 0 then wEmbed i t else Except.error "boom")
          wStore "tr").err.isSome = true))
    ∧ strContains ((processVectorization wQuery2
        (fun i t => if i = 0 then wEmbed i t else Except.error "boom")
        wStore "tr").err.getD "") "tr" = true :=
  ⟨(processVectorization_dual_return_amended wQuery2
      (fun i t => if i = 0 then wEmbed i t else Except.error "boom") wStore "tr").1,
    (processVectorization_dual_return_amended wQuery2
      (fun i t => if i = 0 then wEmbed i t else Except.error "boom") wStore "tr").2.1
      (by decide)⟩

/-- C9: calling the paginated retriever or the vectorization stage with an
empty trace id fails immediately with the input-validation error and performs
zero store queries, zero embedding calls and zero store writes. -/
theorem empty_trace_fast_fail :
    (∀ (query : Nat → Retriever.QueryResp),
        (Retriever.GetCombinedTextsByTraceID query "").1
            = Except.error "traceID cannot be empty"
          ∧ (Retriever.GetCombinedTextsByTraceID query "").2 = 0)
      ∧ ∀ (query : Nat → Retriever.QueryResp)
          (embed : Nat → Retriever.CombinedText → Except String EmbeddingResponse)
          (store : Nat → List Storage.VectorRecord → Storage.StoreCall),
          (processVectorization query embed store "").result.status = .failed
            ∧ (processVectorization query embed store "").err
                = some (mkProcErr "validation" "traceID cannot be empty")
            ∧ (processVectorization query embed store "").trace.queryCalls = 0
            ∧ (processVectorization query embed store "").trace.embedCalls = 0
            ∧ (processVectorization query embed store "").trace.storeCallSizes = [] :=
  ⟨fun _ => ⟨rfl, rfl⟩, fun _ _ _ => ⟨rfl, rfl, rfl, rfl, rfl⟩⟩

end Coordinator

end PaperPipeline
